import Mathlib

/-!
Shallow embedding of the askus telegram bot's question-rotation core
(`src/main.py`): the asked-question ledger, the participant registry,
the random question selector and the delivery orchestrator, together
with theorems settling the specification claims.

Storage is modelled explicitly: a `DB` value holds the three MongoDB
collections, and a `Store` is either a ready database handle, an
uninitialized handle (`db is None` in the source) or a handle whose
every operation raises (`failing`, the `except Exception` paths).
Randomness (`$sample`, `random.randint`, `random.sample`,
`random.choice`) is modelled by explicit seeds interpreted modulo the
relevant pool size.
-/

namespace AskUs

/-- Question/option text, modelled as a list of characters so that
substring operations (Python `str.format`, `in`) can be reasoned about. -/
abbrev Str := List Char

/-- A question template document from the `question_templates` collection.
`hash` is `template.get("hash")` (absent field modelled as `none`);
`type` is the `"type"` field; `options` is the fixed option list
(only meaningful for `custom_options` templates). -/
structure Template where
  hash : Option Int
  type : Str
  question : Str
  options : List Str
deriving DecidableEq, Repr

/-- A document of the `participants` collection.  `username` is `None`
or a string; the empty string is distinct from `none` (both are falsy
in Python). -/
structure Participant where
  userId : Int
  chatId : Int
  username : Option Str
deriving DecidableEq, Repr

/-- A document of the `asked_questions` collection. -/
structure AskedRecord where
  chatId : Int
  questionHash : Int
  askedAt : Nat
deriving DecidableEq, Repr

/-- The three MongoDB collections used by the bot. -/
structure DB where
  templates : List Template
  participants : List Participant
  asked : List AskedRecord
deriving DecidableEq, Repr

/-- The global storage handle: `ready` (connected), `unavailable`
(`db is None`), or `failing` (every collection operation raises, which
the source catches with `except Exception`). -/
inductive Store where
  | unavailable
  | failing
  | ready (db : DB)
deriving DecidableEq, Repr

/-- `get_asked_question_hashes(chat_id)`: hashes of asked-question
records for this chat; `[]` when the store is unavailable or raises. -/
def get_asked_question_hashes (store : Store) (chatId : Int) : List Int :=
  match store with
  | .ready db => (db.asked.filter (fun r => r.chatId == chatId)).map (fun r => r.questionHash)
  | _ => []

/-- MongoDB `update_one(filter, {$set: ...}, upsert=True)` on the
`asked_questions` collection: update the first record matching
`(chatId, questionHash)`, or append a fresh one. -/
def upsertAsked : List AskedRecord → Int → Int → Nat → List AskedRecord
  | [], c, h, now => [⟨c, h, now⟩]
  | r :: rs, c, h, now =>
    if r.chatId == c && r.questionHash == h then { r with askedAt := now } :: rs
    else r :: upsertAsked rs c h now

/-- `mark_question_as_asked(chat_id, question_hash)`: idempotent upsert
into the ledger; `false` without effect when the store is unavailable
or raises. -/
def mark_question_as_asked (store : Store) (chatId h : Int) (now : Nat) : Store × Bool :=
  match store with
  | .ready db => (.ready { db with asked := upsertAsked db.asked chatId h now }, true)
  | _ => (store, false)

/-- `reset_asked_questions(chat_id)`: `delete_many({"chat_id": chat_id})`
on the ledger. -/
def reset_asked_questions (store : Store) (chatId : Int) : Store × Bool :=
  match store with
  | .ready db =>
    (.ready { db with asked := db.asked.filter (fun r => !(r.chatId == chatId)) }, true)
  | _ => (store, false)

/-- The `$match` stage of the selector's aggregation: when the asked
list is empty the query is `{}` (everything matches); otherwise
`{"hash": {"$nin": asked}}`, which also matches documents missing the
`hash` field. -/
def matchedTemplates (db : DB) (asked : List Int) : List Template :=
  if asked.isEmpty then db.templates
  else db.templates.filter fun t =>
    match t.hash with
    | some h => !(asked.contains h)
    | none => true

/-- MongoDB `$sample {size: 1}` / Python `random.choice`, modelled as
picking the element at `seed % length`; `none` on an empty pool. -/
def pickMod {α : Type} (l : List α) (seed : Nat) : Option α :=
  match l with
  | [] => none
  | a :: rest => some ((a :: rest).get ⟨seed % (rest.length + 1), Nat.mod_lt _ (Nat.succ_pos _)⟩)

/-- `get_random_question_from_db(chat_id)`: draw one random template not
yet asked in this chat; on exhaustion with a non-empty pool, reset the
chat's ledger and draw once more from the full pool.  Returns the drawn
template together with the (possibly reset) store. -/
def get_random_question_from_db (store : Store) (chatId : Int) (s1 s2 : Nat) :
    Option Template × Store :=
  match store with
  | .ready db =>
    let asked := get_asked_question_hashes (.ready db) chatId
    match pickMod (matchedTemplates db asked) s1 with
    | some t => (some t, .ready db)
    | none =>
      if db.templates.length = 0 then (none, .ready db)
      else
        let store2 := (reset_asked_questions (.ready db) chatId).1
        (pickMod db.templates s2, store2)
  | _ => (none, store)

/-- `is_user_participating(user_id, chat_id)`. -/
def is_user_participating (store : Store) (userId chatId : Int) : Bool :=
  match store with
  | .ready db => db.participants.any (fun p => p.userId == userId && p.chatId == chatId)
  | _ => false

/-- `update_one(..., upsert=True)` on the `participants` collection:
replace the first record with the same `(user_id, chat_id)` pair, or
append a fresh one. -/
def upsertParticipant : List Participant → Int → Int → Option Str → List Participant
  | [], u, c, name => [⟨u, c, name⟩]
  | p :: ps, u, c, name =>
    if p.userId == u && p.chatId == c then ⟨u, c, name⟩ :: ps
    else p :: upsertParticipant ps u c name

/-- `add_participant(user_id, chat_id, username)`. -/
def add_participant (store : Store) (userId chatId : Int) (username : Option Str) :
    Store × Bool :=
  match store with
  | .ready db =>
    (.ready { db with participants := upsertParticipant db.participants userId chatId username },
     true)
  | _ => (store, false)

/-- `delete_one` on the `participants` collection: remove the first
matching record, reporting whether one was deleted. -/
def removeFirst : List Participant → Int → Int → List Participant × Bool
  | [], _, _ => ([], false)
  | p :: ps, u, c =>
    if p.userId == u && p.chatId == c then (ps, true)
    else
      let rb := removeFirst ps u c
      (p :: rb.1, rb.2)

/-- `remove_participant(user_id, chat_id)`: returns `deleted_count > 0`. -/
def remove_participant (store : Store) (userId chatId : Int) : Store × Bool :=
  match store with
  | .ready db =>
    let rb := removeFirst db.participants userId chatId
    (.ready { db with participants := rb.1 }, rb.2)
  | _ => (store, false)

/-- `get_participants_names(chat_id)`: usernames of this chat's
participants, keeping only truthy (present and non-empty) usernames. -/
def get_participants_names (store : Store) (chatId : Int) : List Str :=
  match store with
  | .ready db =>
    (db.participants.filter (fun p => p.chatId == chatId)).filterMap fun p =>
      match p.username with
      | some u => if u.isEmpty then none else some u
      | none => none
  | _ => []

/-- `get_participants_count(chat_id)`: `count_documents({"chat_id": chat_id})`. -/
def get_participants_count (store : Store) (chatId : Int) : Nat :=
  match store with
  | .ready db => (db.participants.filter (fun p => p.chatId == chatId)).length
  | _ => 0

/-- `get_all_active_chats()`: distinct `chat_id` values of the
`participants` collection. -/
def get_all_active_chats (store : Store) : List Int :=
  match store with
  | .ready db => (db.participants.map (fun p => p.chatId)).dedup
  | _ => []

/-- `random.sample(population, k)`: draw `k` elements without
replacement; each step consumes one seed and removes the picked
position from the pool. -/
def sampleK (l : List Str) (k : Nat) (seeds : List Nat) : List Str :=
  match k, l with
  | 0, _ => []
  | _ + 1, [] => []
  | k + 1, a :: rest =>
    let i := seeds.headD 0 % (rest.length + 1)
    (a :: rest).get ⟨i, Nat.mod_lt _ (Nat.succ_pos _)⟩ ::
      sampleK ((a :: rest).eraseIdx i) k seeds.tail

/-- The literal `\x7bmember\x7d` placeholder of `custom_options`
question texts. -/
def placeholder : Str := "\x7bmember\x7d".toList

/-- Scanner for Python `question.format(member=member)`: at each
position, either consume a whole placeholder occurrence and emit the
member's name, or emit the current character.  The fuel argument only
bounds the recursion (each step consumes at least one character, so
`s.length` fuel always suffices). -/
def replaceAllFuel : Nat → Str → Str → Str
  | 0, s, _ => s
  | fuel + 1, s, m =>
    match s with
    | [] => []
    | c :: rest =>
      if placeholder.isPrefixOf (c :: rest) then
        m ++ replaceAllFuel fuel ((c :: rest).drop placeholder.length) m
      else
        c :: replaceAllFuel fuel rest m

/-- Python `question.format(member=member)`: replace every occurrence
of the placeholder by the member's name, scanning left to right. -/
def replaceAll (s m : Str) : Str :=
  replaceAllFuel s.length s m

/-- Error reply used when the selector has no template to offer. -/
def errNoQuestions : Str := "Sorry, no questions available!".toList

/-- Error reply for `member_options` templates with fewer than three
named participants. -/
def errNeed3 : Str := "Sorry, need at least 3 participants for this type of question!".toList

/-- Error reply for `custom_options` templates with no named participant. -/
def errNoParticipants : Str := "Sorry, no participants available for this question!".toList

/-- Error reply for an unknown template type. -/
def errInvalidType : Str := "Sorry, invalid question type!".toList

/-- The sentinel options list `["Error"]` that callers test for. -/
def errOption : List Str := ["Error".toList]

/-- The seeds feeding every random draw of one selector invocation:
`s1`, `s2` for the two `$sample` stages, `cnt` for `random.randint`,
`sampleSeeds` for `random.sample` and `choice` for `random.choice`. -/
structure Rand where
  s1 : Nat
  s2 : Nat
  cnt : Nat
  sampleSeeds : List Nat
  choice : Nat
deriving DecidableEq, Repr

/-- The branch of `generate_random_question` that renders a drawn
template: gate on participants, draw options, substitute the member. -/
def build_question (store1 : Store) (chatId : Int) (r : Rand) (t : Template) :
    (Str × List Str × Option Int) × Store :=
  if t.type == "member_options".toList then
    let names := get_participants_names store1 chatId
    if names.length < 3 then ((errNeed3, errOption, none), store1)
    else
      let k := 3 + r.cnt % (min 6 names.length - 3 + 1)
      ((t.question, sampleK names k r.sampleSeeds, t.hash), store1)
  else if t.type == "custom_options".toList then
    let names := get_participants_names store1 chatId
    if names.isEmpty then ((errNoParticipants, errOption, none), store1)
    else
      match pickMod names r.choice with
      | some member => ((replaceAll t.question member, t.options, t.hash), store1)
      | none => ((errNoParticipants, errOption, none), store1)
  else ((errInvalidType, errOption, none), store1)

/-- `generate_random_question(chat_id)`: draw a template, then build the
question text and options; errors are the source's sentinel triples.
Returns the triple together with the possibly-reset store. -/
def generate_random_question (store : Store) (chatId : Int) (r : Rand) :
    (Str × List Str × Option Int) × Store :=
  match get_random_question_from_db store chatId r.s1 r.s2 with
  | (none, store1) => ((errNoQuestions, errOption, none), store1)
  | (some t, store1) => build_question store1 chatId r t

/-- Outcome of one `bot.send_poll` call: success, or a `TelegramError`
carrying its message string. -/
inductive SendResult where
  | ok
  | err (msg : Str)
deriving DecidableEq, Repr

/-- The keyword list the source scans an error message for to decide
whether the sub-channel (topic) destination is missing. -/
def topicKeywords : List Str :=
  ["message thread not found".toList, "thread not found".toList,
   "topic not found".toList, "bad request".toList]

/-- Python `str.lower()`. -/
def lowerStr (s : Str) : Str := s.map Char.toLower

/-- Python's substring test `needle in hay`. -/
def strContains (needle hay : Str) : Bool :=
  match hay with
  | [] => needle.isEmpty
  | c :: rest => needle.isPrefixOf (c :: rest) || strContains needle rest

/-- `any(keyword in error_message for keyword in [...])` over the
lowercased `TelegramError` message. -/
def isTopicNotFound (msg : Str) : Bool :=
  topicKeywords.any fun kw => strContains kw (lowerStr msg)

/-- `if question_hash: mark_question_as_asked(chat_id, question_hash)` —
the Python truthiness test skips `None` and the integer `0`. -/
def markIfHash (store : Store) (chatId : Int) (h? : Option Int) (now : Nat) : Store :=
  match h? with
  | some h => if h = 0 then store else (mark_question_as_asked store chatId h now).1
  | none => store

/-- What one scheduled delivery did, as observed by its logging. -/
inductive DeliveryResult where
  | skippedNoParticipants
  | blockedGeneration (msg : Str)
  | sentPrimary
  | sentFallback
  | failedPrimary (msg : Str)
  | failedFallback (msg : Str)
deriving DecidableEq, Repr

/-- Result of `send_scheduled_question`: the new store, the outcome,
and the list of `send_poll` attempts (`true` = with the topic
`message_thread_id`, `false` = general chat). -/
structure DeliveryStep where
  store : Store
  result : DeliveryResult
  attempts : List Bool
deriving DecidableEq, Repr

/-- `send_scheduled_question(context, chat_id)`: gate on the participant
count, generate a question, send to the topic, fall back to the general
chat on a topic-not-found class error, and record the template as asked
only after a successful send.  `primary` and `fallback` are the
messaging collaborator's responses to the two possible sends. -/
def send_scheduled_question (store : Store) (chatId : Int) (r : Rand) (now : Nat)
    (primary fallback : SendResult) : DeliveryStep :=
  if get_participants_count store chatId = 0 then
    ⟨store, .skippedNoParticipants, []⟩
  else
    match generate_random_question store chatId r with
    | ((question, options, h?), store1) =>
      if options = errOption then ⟨store1, .blockedGeneration question, []⟩
      else
        match primary with
        | .ok => ⟨markIfHash store1 chatId h? now, .sentPrimary, [true]⟩
        | .err msg =>
          if isTopicNotFound msg then
            match fallback with
            | .ok => ⟨markIfHash store1 chatId h? now, .sentFallback, [true, false]⟩
            | .err m2 => ⟨store1, .failedFallback m2, [true, false]⟩
          else ⟨store1, .failedPrimary msg, [true]⟩

/-- What the `/question` command handler did. -/
inductive AskResult where
  | repliedDisabled
  | promptParticipate
  | repliedError (msg : Str)
  | polled (question : Str) (options : List Str)
  | sendRaised (msg : Str)
deriving DecidableEq, Repr

/-- The body of `ask_question` below its short-circuit: gate on the
requesting user's participation, generate, send a poll, and record the
template only after a successful send (a send error propagates out of
the handler unrecorded). -/
def ask_question_body (store : Store) (userId chatId : Int) (r : Rand) (now : Nat)
    (send : SendResult) : Store × AskResult :=
  if !(is_user_participating store userId chatId) then (store, .promptParticipate)
  else
    match generate_random_question store chatId r with
    | ((question, options, h?), store1) =>
      if options = errOption then (store1, .repliedError question)
      else
        match send with
        | .ok => (markIfHash store1 chatId h? now, .polled question options)
        | .err msg => (store1, .sendRaised msg)

/-- `ask_question(update, context)`: the handler's first statement is
`return await update.message.reply_text("The feature is currently
disabled.")`, so everything below it is unreachable. -/
def ask_question (store : Store) (_userId _chatId : Int) (_r : Rand) (_now : Nat)
    (_send : SendResult) : Store × AskResult :=
  (store, .repliedDisabled)

/-- Stores reachable from an empty ledger (fixed template pool,
arbitrary initial participants) under the program's entry points:
the selector (which may reset), deliveries (which record only after a
confirmed send), the on-demand handler and its disabled body, and the
ledger reset. -/
inductive Reachable (templates : List Template) : Store → Prop where
  | init (participants : List Participant) :
      Reachable templates (.ready ⟨templates, participants, []⟩)
  | selector (s : Store) (chat : Int) (s1 s2 : Nat) :
      Reachable templates s →
      Reachable templates (get_random_question_from_db s chat s1 s2).2
  | deliver (s : Store) (chat : Int) (r : Rand) (now : Nat) (p f : SendResult) :
      Reachable templates s →
      Reachable templates (send_scheduled_question s chat r now p f).store
  | askBody (s : Store) (user chat : Int) (r : Rand) (now : Nat) (snd : SendResult) :
      Reachable templates s →
      Reachable templates (ask_question_body s user chat r now snd).1
  | askDisabled (s : Store) (user chat : Int) (r : Rand) (now : Nat) (snd : SendResult) :
      Reachable templates s →
      Reachable templates (ask_question s user chat r now snd).1
  | resetStep (s : Store) (chat : Int) :
      Reachable templates s →
      Reachable templates (reset_asked_questions s chat).1

/-- The `(chat_id, question_hash)` key of a ledger record — the part the
upsert filter looks at and `get_asked_question_hashes` reads. -/
def recKey (r : AskedRecord) : Int × Int := (r.chatId, r.questionHash)

/-- Hashes for chat `g` as read off the key list of the ledger. -/
def hashesOfKeys (ks : List (Int × Int)) (g : Int) : List Int :=
  (ks.filter (fun kv => kv.1 == g)).map (fun kv => kv.2)

theorem filterMap_hashes_eq_hashesOfKeys (l : List AskedRecord) (g : Int) :
    (l.filter (fun r => r.chatId == g)).map (fun r => r.questionHash) =
      hashesOfKeys (l.map recKey) g := by
  induction l with
  | nil => rfl
  | cons r rs ih =>
    simp only [List.map_cons, hashesOfKeys, List.filter_cons, recKey] at ih ⊢
    by_cases hc : (r.chatId == g) = true
    · simp only [hc, if_true, List.map_cons]
      exact congrArg (r.questionHash :: ·) ih
    · simp only [hc, if_false]
      exact ih

theorem get_asked_eq_hashesOfKeys (db : DB) (g : Int) :
    get_asked_question_hashes (.ready db) g = hashesOfKeys (db.asked.map recKey) g :=
  filterMap_hashes_eq_hashesOfKeys db.asked g

theorem map_recKey_upsert (l : List AskedRecord) (c h : Int) (t : Nat) :
    (upsertAsked l c h t).map recKey =
      if l.any (fun r => r.chatId == c && r.questionHash == h) then l.map recKey
      else l.map recKey ++ [(c, h)] := by
  induction l with
  | nil => simp [upsertAsked, recKey]
  | cons r rs ih =>
    by_cases hm : (r.chatId == c && r.questionHash == h) = true
    · simp only [upsertAsked]
      rw [if_pos hm]
      have hc : ((r :: rs).any fun x => x.chatId == c && x.questionHash == h) = true := by
        simp [List.any_cons, hm]
      rw [if_pos hc]
      rfl
    · have hmf : (r.chatId == c && r.questionHash == h) = false := by
        simpa using hm
      simp only [upsertAsked]
      rw [if_neg hm, List.map_cons, ih]
      simp only [List.any_cons, hmf, Bool.false_or]
      by_cases hr : (rs.any fun x => x.chatId == c && x.questionHash == h) = true
      · rw [if_pos hr, if_pos hr, List.map_cons]
      · rw [if_neg hr, if_neg hr, List.map_cons, List.cons_append]

theorem upsert_any (l : List AskedRecord) (c h : Int) (t : Nat) :
    (upsertAsked l c h t).any (fun r => r.chatId == c && r.questionHash == h) = true := by
  induction l with
  | nil => simp [upsertAsked]
  | cons r rs ih =>
    simp only [upsertAsked]
    by_cases hm : (r.chatId == c && r.questionHash == h) = true
    · rw [if_pos hm]
      simp only [List.any_cons]
      simp [hm]
    · rw [if_neg hm]
      simp [List.any_cons, ih]

/-- C4: `recordAsked` is an idempotent upsert — marking the same
`(group, template)` pair twice leaves the exclusion set observed via
`get_asked_question_hashes` (for every group) the same as marking it
once. -/
theorem recordAsked_idempotent (s : Store) (chat h : Int) (t1 t2 : Nat) (g : Int) :
    get_asked_question_hashes
        (mark_question_as_asked (mark_question_as_asked s chat h t1).1 chat h t2).1 g =
      get_asked_question_hashes (mark_question_as_asked s chat h t1).1 g := by
  cases s with
  | unavailable => rfl
  | failing => rfl
  | ready db =>
    have k2 := map_recKey_upsert (upsertAsked db.asked chat h t1) chat h t2
    rw [upsert_any db.asked chat h t1, if_pos rfl] at k2
    show get_asked_question_hashes
        (.ready { db with asked := upsertAsked (upsertAsked db.asked chat h t1) chat h t2 }) g =
      get_asked_question_hashes (.ready { db with asked := upsertAsked db.asked chat h t1 }) g
    rw [get_asked_eq_hashesOfKeys, get_asked_eq_hashesOfKeys]
    exact congrArg (fun ks => hashesOfKeys ks g) k2

/-- C9: with an uninitialized storage handle or a raising storage
collaborator, every core operation degrades to a "no data" result: reads
return empty lists, the count returns 0, the selector returns no
template, and all writes report `false` without touching the store. -/
theorem store_unavailable_degrades (chat user h : Int) (now : Nat) (s1 s2 : Nat)
    (uname : Option Str) :
    (get_asked_question_hashes .unavailable chat = [] ∧
     get_participants_names .unavailable chat = [] ∧
     get_all_active_chats .unavailable = [] ∧
     get_participants_count .unavailable chat = 0 ∧
     get_random_question_from_db .unavailable chat s1 s2 = (none, .unavailable) ∧
     mark_question_as_asked .unavailable chat h now = (.unavailable, false) ∧
     reset_asked_questions .unavailable chat = (.unavailable, false) ∧
     add_participant .unavailable user chat uname = (.unavailable, false) ∧
     remove_participant .unavailable user chat = (.unavailable, false) ∧
     is_user_participating .unavailable user chat = false) ∧
    (get_asked_question_hashes .failing chat = [] ∧
     get_participants_names .failing chat = [] ∧
     get_all_active_chats .failing = [] ∧
     get_participants_count .failing chat = 0 ∧
     get_random_question_from_db .failing chat s1 s2 = (none, .failing) ∧
     mark_question_as_asked .failing chat h now = (.failing, false) ∧
     reset_asked_questions .failing chat = (.failing, false) ∧
     add_participant .failing user chat uname = (.failing, false) ∧
     remove_participant .failing user chat = (.failing, false) ∧
     is_user_participating .failing user chat = false) :=
  ⟨⟨rfl, rfl, rfl, rfl, rfl, rfl, rfl, rfl, rfl, rfl⟩,
   ⟨rfl, rfl, rfl, rfl, rfl, rfl, rfl, rfl, rfl, rfl⟩⟩

theorem pickMod_mem {α : Type} (l : List α) (s : Nat) {x : α} (hp : pickMod l s = some x) :
    x ∈ l := by
  cases l with
  | nil => simp [pickMod] at hp
  | cons a rest =>
    simp only [pickMod, Option.some.injEq] at hp
    rw [← hp]
    exact List.get_mem _ _ _

theorem matchedTemplates_subset (db : DB) (a : List Int) (t : Template)
    (ht : t ∈ matchedTemplates db a) : t ∈ db.templates := by
  unfold matchedTemplates at ht
  split at ht
  · exact ht
  · exact List.mem_of_mem_filter ht

theorem filter_reset_empty (l : List AskedRecord) (chat : Int) :
    ((l.filter fun r => !(r.chatId == chat)).filter fun r => r.chatId == chat) = [] := by
  induction l with
  | nil => rfl
  | cons r rs ih =>
    by_cases hc : (r.chatId == chat) = true
    · simp [List.filter_cons, hc, ih]
    · simp [List.filter_cons, hc, ih]

theorem asked_after_reset (db : DB) (chat : Int) :
    get_asked_question_hashes ((reset_asked_questions (.ready db) chat).1) chat = [] := by
  show ((db.asked.filter fun r => !(r.chatId == chat)).filter fun r => r.chatId == chat).map
      (fun r => r.questionHash) = []
  rw [filter_reset_empty]
  rfl

/-- C1: when the exclusion-filtered draw is empty the selector fails
with no template exactly when the pool is empty; otherwise it clears
the group's ledger and retries once against the full pool, and with a
non-empty pool it always returns a stored template (never starves). -/
theorem selector_reset_retry (db : DB) (parts : List Participant)
    (askedL : List AskedRecord) (chat : Int) (s1 s2 : Nat) :
    (get_random_question_from_db (.ready ⟨[], parts, askedL⟩) chat s1 s2 =
       (none, .ready ⟨[], parts, askedL⟩)) ∧
    (matchedTemplates db (get_asked_question_hashes (.ready db) chat) = [] →
       db.templates ≠ [] →
       ∃ t, get_random_question_from_db (.ready db) chat s1 s2 =
              (some t, (reset_asked_questions (.ready db) chat).1) ∧
            t ∈ db.templates ∧
            get_asked_question_hashes
              (get_random_question_from_db (.ready db) chat s1 s2).2 chat = []) ∧
    (db.templates ≠ [] →
       ∃ t, (get_random_question_from_db (.ready db) chat s1 s2).1 = some t ∧
            t ∈ db.templates) := by
  have hreset : ∀ (hm : matchedTemplates db (get_asked_question_hashes (.ready db) chat) = [])
      (hne : db.templates ≠ []),
      get_random_question_from_db (.ready db) chat s1 s2 =
        (pickMod db.templates s2, (reset_asked_questions (.ready db) chat).1) := by
    intro hm hne
    have hlen : ¬ db.templates.length = 0 := by
      intro h0
      exact hne (List.length_eq_zero.mp h0)
    simp only [get_random_question_from_db]
    rw [hm]
    simp only [pickMod]
    rw [if_neg hlen]
  refine ⟨?_, ?_, ?_⟩
  · simp [get_random_question_from_db, matchedTemplates, pickMod]
  · intro hm hne
    cases htp : db.templates with
    | nil => exact absurd htp hne
    | cons a rest =>
      have heq := hreset hm hne
      rw [htp] at heq
      refine ⟨(a :: rest).get ⟨s2 % (rest.length + 1), Nat.mod_lt _ (Nat.succ_pos _)⟩,
        ?_, ?_, ?_⟩
      · rw [heq]
        rfl
      · exact List.get_mem _ _ _
      · rw [heq]
        exact asked_after_reset db chat
  · intro hne
    cases hp : pickMod (matchedTemplates db (get_asked_question_hashes (.ready db) chat)) s1 with
    | some t =>
      have heq : get_random_question_from_db (.ready db) chat s1 s2 = (some t, .ready db) := by
        simp only [get_random_question_from_db]
        rw [hp]
      exact ⟨t, by rw [heq], matchedTemplates_subset _ _ _ (pickMod_mem _ _ hp)⟩
    | none =>
      have hm : matchedTemplates db (get_asked_question_hashes (.ready db) chat) = [] := by
        cases hmt : matchedTemplates db (get_asked_question_hashes (.ready db) chat) with
        | nil => rfl
        | cons a rest =>
          rw [hmt] at hp
          simp [pickMod] at hp
      have heq := hreset hm hne
      cases htp : db.templates with
      | nil => exact absurd htp hne
      | cons a rest =>
        rw [htp] at heq
        refine ⟨(a :: rest).get ⟨s2 % (rest.length + 1), Nat.mod_lt _ (Nat.succ_pos _)⟩, ?_, ?_⟩
        · rw [heq]
          rfl
        · exact List.get_mem _ _ _

/-- A `custom_options` template whose hash is already this chat's whole
exclusion set. -/
def tCust : Template :=
  ⟨some 7, "custom_options".toList, "Who likes \x7bmember\x7d?".toList,
   ["x".toList, "y".toList]⟩

/-- One template, one named participant, and the template already asked:
the exhaustion state. -/
def dbExhausted : DB := ⟨[tCust], [⟨1, 1, some "A".toList⟩], [⟨1, 7, 0⟩]⟩

theorem selector_reset_retry_witness :
    (∃ t, get_random_question_from_db (.ready dbExhausted) 1 0 0 =
            (some t, (reset_asked_questions (.ready dbExhausted) 1).1) ∧
          t ∈ dbExhausted.templates ∧
          get_asked_question_hashes
            (get_random_question_from_db (.ready dbExhausted) 1 0 0).2 1 = []) ∧
    (∃ t, (get_random_question_from_db (.ready dbExhausted) 1 0 0).1 = some t ∧
          t ∈ dbExhausted.templates) :=
  ⟨(selector_reset_retry dbExhausted [] [] 1 0 0).2.1 (by decide) (by decide),
   (selector_reset_retry dbExhausted [] [] 1 0 0).2.2 (by decide)⟩

/-- C10: the zero-participant gate and the participant count look at
all registered participants, while option generation draws only from
participants with a truthy username — so a group whose total count
passes the gates can still block a `member_options` selection with the
insufficient-participants error. -/
theorem named_vs_total_participants (db : DB) (chat : Int) (r : Rand) (t : Template)
    (store1 : Store)
    (hsel : get_random_question_from_db (.ready db) chat r.s1 r.s2 = (some t, store1))
    (htype : t.type = "member_options".toList)
    (hcount : 3 ≤ get_participants_count (.ready db) chat)
    (hnames : (get_participants_names store1 chat).length < 3) :
    get_participants_count (.ready db) chat ≠ 0 ∧
    generate_random_question (.ready db) chat r = ((errNeed3, errOption, none), store1) := by
  constructor
  · omega
  · simp only [generate_random_question]
    rw [hsel]
    simp only [build_question, htype, beq_self_eq_true, if_true]
    rw [if_pos hnames]

/-- A `member_options` template. -/
def tMem : Template := ⟨some 5, "member_options".toList, "Q".toList, []⟩

/-- Three registered participants, none with a username. -/
def dbUnnamed : DB := ⟨[tMem], [⟨1, 1, none⟩, ⟨2, 1, none⟩, ⟨3, 1, none⟩], []⟩

theorem named_vs_total_participants_witness :
    get_participants_count (.ready dbUnnamed) 1 ≠ 0 ∧
    generate_random_question (.ready dbUnnamed) 1 ⟨0, 0, 0, [], 0⟩ =
      ((errNeed3, errOption, none), .ready dbUnnamed) :=
  named_vs_total_participants dbUnnamed 1 ⟨0, 0, 0, [], 0⟩ tMem (.ready dbUnnamed)
    (by decide) (by decide) (by decide) (by decide)

/-- One fresh `custom_options` template and one named participant. -/
def dbFresh : DB := ⟨[tCust], [⟨1, 1, some "A".toList⟩], []⟩

/-- C7 counterexample: the `/question` handler's first statement replies
"The feature is currently disabled." and returns, so even a
participating requester gets no poll and no selection happens — the
store is returned untouched. -/
theorem ask_question_disabled_cex :
    is_user_participating (.ready dbExhausted) 1 1 = true ∧
    ask_question (.ready dbExhausted) 1 1 ⟨0, 0, 0, [], 0⟩ 0 .ok =
      (.ready dbExhausted, .repliedDisabled) := by decide

/-- C7 (amended): the live handler always short-circuits with the
feature-disabled reply and an untouched store; its disabled body gates
on the requesting user's participation — a non-participant gets the
participation prompt with no selection, a participant gets the selected
question as a poll, recorded only when the send succeeds. -/
theorem ask_question_gate (s : Store) (user chat : Int) (r : Rand) (now : Nat)
    (snd : SendResult) :
    ask_question s user chat r now snd = (s, .repliedDisabled) ∧
    (is_user_participating s user chat = false →
       ask_question_body s user chat r now snd = (s, .promptParticipate)) ∧
    (is_user_participating s user chat = true →
       ∀ q opts h? store1, generate_random_question s chat r = ((q, opts, h?), store1) →
         (opts = errOption → ask_question_body s user chat r now snd = (store1, .repliedError q)) ∧
         (opts ≠ errOption → snd = .ok →
            ask_question_body s user chat r now snd =
              (markIfHash store1 chat h? now, .polled q opts)) ∧
         (∀ m, opts ≠ errOption → snd = .err m →
            ask_question_body s user chat r now snd = (store1, .sendRaised m))) := by
  refine ⟨rfl, ?_, ?_⟩
  · intro hnp
    simp [ask_question_body, hnp]
  · intro hp q opts h? store1 hgen
    refine ⟨?_, ?_, ?_⟩
    · intro he
      simp only [ask_question_body, hp, Bool.not_true, Bool.false_eq_true, if_false]
      rw [hgen, if_pos he]
    · intro hne hsnd
      simp only [ask_question_body, hp, Bool.not_true, Bool.false_eq_true, if_false]
      rw [hgen, if_neg hne, hsnd]
    · intro m hne hsnd
      simp only [ask_question_body, hp, Bool.not_true, Bool.false_eq_true, if_false]
      rw [hgen, if_neg hne, hsnd]

theorem ask_question_gate_witness :
    (ask_question_body (.ready dbFresh) 2 1 ⟨0, 0, 0, [], 0⟩ 0 .ok =
       (.ready dbFresh, .promptParticipate)) ∧
    (ask_question_body (.ready dbFresh) 1 1 ⟨0, 0, 0, [], 0⟩ 0 .ok =
       (markIfHash (.ready dbFresh) 1 (some 7) 0, .polled
          (replaceAll tCust.question "A".toList) tCust.options)) :=
  ⟨(ask_question_gate (.ready dbFresh) 2 1 ⟨0, 0, 0, [], 0⟩ 0 .ok).2.1 (by decide),
   (((ask_question_gate (.ready dbFresh) 1 1 ⟨0, 0, 0, [], 0⟩ 0 .ok).2.2 (by decide)
       (replaceAll tCust.question "A".toList) tCust.options (some 7) (.ready dbFresh)
       (by decide)).2.1 (by decide) rfl)⟩

theorem count_cons_get_eraseIdx (l : List Str) (i : Nat) (hi : i < l.length) (x : Str) :
    List.count x (l.get ⟨i, hi⟩ :: l.eraseIdx i) = List.count x l := by
  induction l generalizing i with
  | nil => exact absurd hi (by simp)
  | cons a rest ih =>
    cases i with
    | zero => rfl
    | succ j =>
      have hj : j < rest.length := Nat.lt_of_succ_lt_succ hi
      have hg : (a :: rest).get ⟨j + 1, hi⟩ = rest.get ⟨j, hj⟩ := rfl
      have he : (a :: rest).eraseIdx (j + 1) = a :: rest.eraseIdx j := rfl
      rw [hg, he]
      have ih2 := ih j hj
      simp only [List.count_cons] at ih2 ⊢
      omega

theorem count_sample_step (l : List Str) (i : Nat) (hi : i < l.length) (tail : List Str)
    (x : Str) (h : List.count x tail ≤ List.count x (l.eraseIdx i)) :
    List.count x (l.get ⟨i, hi⟩ :: tail) ≤ List.count x l := by
  have h2 := count_cons_get_eraseIdx l i hi x
  simp only [List.count_cons] at h2 ⊢
  omega

theorem length_sampleK (l : List Str) (k : Nat) (seeds : List Nat) :
    (sampleK l k seeds).length = min k l.length := by
  induction k generalizing l seeds with
  | zero => simp [sampleK]
  | succ k ih =>
    cases l with
    | nil => simp [sampleK]
    | cons a rest =>
      simp only [sampleK, List.length_cons, ih]
      rw [List.length_eraseIdx]
      rw [if_pos (show seeds.headD 0 % (rest.length + 1) < (a :: rest).length from
        Nat.mod_lt _ (Nat.succ_pos _))]
      simp only [List.length_cons]
      omega

theorem count_sampleK (l : List Str) (k : Nat) (seeds : List Nat) (x : Str) :
    List.count x (sampleK l k seeds) ≤ List.count x l := by
  induction k generalizing l seeds with
  | zero => simp [sampleK]
  | succ k ih =>
    cases l with
    | nil => simp [sampleK]
    | cons a rest =>
      simp only [sampleK]
      exact count_sample_step (a :: rest) _ (Nat.mod_lt _ (Nat.succ_pos _)) _ x
        (ih _ seeds.tail)

theorem mem_sampleK (l : List Str) (k : Nat) (seeds : List Nat) (x : Str)
    (hx : x ∈ sampleK l k seeds) : x ∈ l := by
  have h1 : 0 < List.count x (sampleK l k seeds) := List.count_pos_iff.mpr hx
  exact List.count_pos_iff.mp (Nat.lt_of_lt_of_le h1 (count_sampleK l k seeds x))

/-- C2 counterexample: three distinct participants who share the
username "A" pass the three-named-participants gate, and sampling
three of them yields the options `["A", "A", "A"]`, which are not
pairwise-distinct strings. -/
def dbDup : DB :=
  ⟨[tMem], [⟨1, 1, some "A".toList⟩, ⟨2, 1, some "A".toList⟩, ⟨3, 1, some "A".toList⟩], []⟩

theorem member_options_duplicate_names_cex :
    (generate_random_question (.ready dbDup) 1 ⟨0, 0, 0, [0, 0, 0], 0⟩).1 =
      ("Q".toList, ["A".toList, "A".toList, "A".toList], some 5) ∧
    ¬ List.Nodup ["A".toList, "A".toList, "A".toList] := by decide

/-- C2 (amended): for a selected `member_options` template, fewer than
3 named participants blocks with the insufficient-participants error;
otherwise the option count k satisfies 3 ≤ k ≤ min(6, named count),
exactly k options are sampled without replacement from the named
participants' names (each drawn name's multiplicity never exceeds its
multiplicity in the roster, though equal username strings can repeat),
and the question text is used verbatim. -/
theorem member_options_sampling (db : DB) (chat : Int) (r : Rand) (t : Template)
    (store1 : Store)
    (hsel : get_random_question_from_db (.ready db) chat r.s1 r.s2 = (some t, store1))
    (htype : t.type = "member_options".toList) :
    ((get_participants_names store1 chat).length < 3 →
       generate_random_question (.ready db) chat r = ((errNeed3, errOption, none), store1)) ∧
    (∀ names, get_participants_names store1 chat = names → 3 ≤ names.length →
       generate_random_question (.ready db) chat r =
         ((t.question, sampleK names (3 + r.cnt % (min 6 names.length - 3 + 1)) r.sampleSeeds,
           t.hash), store1) ∧
       3 ≤ 3 + r.cnt % (min 6 names.length - 3 + 1) ∧
       3 + r.cnt % (min 6 names.length - 3 + 1) ≤ min 6 names.length ∧
       (sampleK names (3 + r.cnt % (min 6 names.length - 3 + 1)) r.sampleSeeds).length =
         3 + r.cnt % (min 6 names.length - 3 + 1) ∧
       (∀ x ∈ sampleK names (3 + r.cnt % (min 6 names.length - 3 + 1)) r.sampleSeeds,
          x ∈ names) ∧
       (∀ x, (sampleK names (3 + r.cnt % (min 6 names.length - 3 + 1)) r.sampleSeeds).count x ≤
          names.count x)) := by
  constructor
  · intro hlt
    simp only [generate_random_question]
    rw [hsel]
    simp only [build_question, htype, beq_self_eq_true, if_true]
    rw [if_pos hlt]
  · intro names hn h3
    have hklt : r.cnt % (min 6 names.length - 3 + 1) < min 6 names.length - 3 + 1 :=
      Nat.mod_lt _ (by omega)
    have hkle : 3 + r.cnt % (min 6 names.length - 3 + 1) ≤ min 6 names.length := by omega
    have hnlt : ¬ names.length < 3 := by omega
    refine ⟨?_, by omega, hkle, ?_, ?_, ?_⟩
    · simp only [generate_random_question]
      rw [hsel]
      simp only [build_question, htype, beq_self_eq_true, if_true, hn]
      rw [if_neg hnlt]
    · rw [length_sampleK]
      have : min 6 names.length ≤ names.length := Nat.min_le_right _ _
      omega
    · intro x hx
      exact mem_sampleK _ _ _ _ hx
    · intro x
      exact count_sampleK _ _ _ _

theorem member_options_sampling_witness :
    ((generate_random_question (.ready dbUnnamed) 1 ⟨0, 0, 0, [], 0⟩ =
        ((errNeed3, errOption, none), .ready dbUnnamed))) ∧
    (generate_random_question (.ready dbDup) 1 ⟨0, 0, 0, [0, 0, 0], 0⟩ =
        (("Q".toList, sampleK ["A".toList, "A".toList, "A".toList] 3 [0, 0, 0], some 5),
         .ready dbDup) ∧
     (sampleK ["A".toList, "A".toList, "A".toList] 3 [0, 0, 0]).length = 3) :=
  ⟨(member_options_sampling dbUnnamed 1 ⟨0, 0, 0, [], 0⟩ tMem (.ready dbUnnamed)
      (by decide) (by decide)).1 (by decide),
   by
     have h := (member_options_sampling dbDup 1 ⟨0, 0, 0, [0, 0, 0], 0⟩ tMem (.ready dbDup)
       (by decide) (by decide)).2 ["A".toList, "A".toList, "A".toList] (by decide) (by decide)
     exact ⟨h.1, h.2.2.2.1⟩⟩

theorem isPrefixOf_placeholder_head {c : Char} {rest : Str}
    (h : placeholder.isPrefixOf (c :: rest) = true) : c = '\x7b' := by
  have hp : placeholder = '\x7b' :: "member\x7d".toList := rfl
  rw [hp] at h
  simp only [List.isPrefixOf, Bool.and_eq_true, beq_iff_eq] at h
  exact h.1.symm

theorem isPrefixOf_append_self (l t : Str) : l.isPrefixOf (l ++ t) = true := by
  induction l with
  | nil => simp [List.isPrefixOf]
  | cons c rest ih => simp [List.isPrefixOf, ih]

theorem replaceAllFuel_no_brace (fuel : Nat) :
    ∀ (s m : Str), '\x7b' ∉ s → s.length ≤ fuel → replaceAllFuel fuel s m = s := by
  induction fuel with
  | zero =>
    intro s m _ _
    rfl
  | succ fuel ih =>
    intro s m hs hlen
    cases s with
    | nil => rfl
    | cons c rest =>
      have hc : c ≠ '\x7b' := by
        intro h
        exact hs (by rw [← h]; exact List.mem_cons_self c rest)
      have hnp : ¬ placeholder.isPrefixOf (c :: rest) = true := fun hp =>
        hc (isPrefixOf_placeholder_head hp)
      have hrest : '\x7b' ∉ rest := fun hh => hs (List.mem_cons_of_mem _ hh)
      simp only [replaceAllFuel]
      rw [if_neg hnp]
      rw [ih rest m hrest (by simpa using Nat.le_of_succ_le_succ (by simpa using hlen))]

theorem replaceAllFuel_shape (fuel : Nat) :
    ∀ (pre post m : Str), '\x7b' ∉ pre → '\x7b' ∉ post → '\x7b' ∉ m →
      (pre ++ placeholder ++ post).length ≤ fuel →
      replaceAllFuel fuel (pre ++ placeholder ++ post) m = pre ++ m ++ post := by
  induction fuel with
  | zero =>
    intro pre post m _ _ _ hlen
    exfalso
    simp only [List.length_append] at hlen
    have h8 : placeholder.length = 8 := rfl
    omega
  | succ fuel ih =>
    intro pre post m hpre hpost hm hlen
    cases pre with
    | nil =>
      have hcons : ([] : Str) ++ placeholder ++ post =
          '\x7b' :: ("member\x7d".toList ++ post) := rfl
      rw [hcons]
      simp only [replaceAllFuel]
      rw [if_pos (show placeholder.isPrefixOf ('\x7b' :: ("member\x7d".toList ++ post)) = true
        from isPrefixOf_append_self placeholder post)]
      rw [show ('\x7b' :: ("member\x7d".toList ++ post)).drop placeholder.length = post from
        List.drop_left placeholder post]
      rw [replaceAllFuel_no_brace fuel post m hpost (by
        simp only [List.nil_append, List.length_append] at hlen
        have h8 : placeholder.length = 8 := rfl
        omega)]
      rfl
    | cons c pre2 =>
      have hc : c ≠ '\x7b' := by
        intro h
        exact hpre (by rw [← h]; exact List.mem_cons_self c pre2)
      have hpre2 : '\x7b' ∉ pre2 := fun hh => hpre (List.mem_cons_of_mem _ hh)
      have hnp : ¬ placeholder.isPrefixOf (c :: (pre2 ++ placeholder ++ post)) = true :=
        fun hp => hc (isPrefixOf_placeholder_head hp)
      simp only [List.cons_append]
      simp only [replaceAllFuel]
      rw [if_neg (by simpa only [List.cons_append] using hnp)]
      rw [ih pre2 post m hpre2 hpost hm (by
        simp only [List.length_append, List.length_cons] at hlen ⊢
        omega)]

/-- Rendering with one placeholder occurrence and no other brace
characters splices the member name in place of the placeholder. -/
theorem replaceAll_shape (pre post m : Str) (hpre : '\x7b' ∉ pre) (hpost : '\x7b' ∉ post)
    (hm : '\x7b' ∉ m) :
    replaceAll (pre ++ placeholder ++ post) m = pre ++ m ++ post :=
  replaceAllFuel_shape _ pre post m hpre hpost hm (Nat.le_refl _)

theorem strContains_prefix (m hay : Str) (hpre : m.isPrefixOf hay = true) :
    strContains m hay = true := by
  cases hay with
  | nil =>
    cases m with
    | nil => rfl
    | cons c rest => simp [List.isPrefixOf] at hpre
  | cons c rest => simp [strContains, hpre]

theorem strContains_mid (pre m post : Str) : strContains m (pre ++ m ++ post) = true := by
  induction pre with
  | nil =>
    simp only [List.nil_append]
    exact strContains_prefix m (m ++ post) (isPrefixOf_append_self m post)
  | cons c pre2 ih =>
    simp only [List.cons_append]
    have ih2 : strContains m (pre2 ++ (m ++ post)) = true := by
      rw [← List.append_assoc]
      exact ih
    simp [strContains, ih2]

theorem strContains_placeholder_eq_false (hay : Str) (h : '\x7b' ∉ hay) :
    strContains placeholder hay = false := by
  induction hay with
  | nil => rfl
  | cons c rest ih =>
    have hc : c ≠ '\x7b' := by
      intro hh
      exact h (by rw [← hh]; exact List.mem_cons_self c rest)
    have hrest : '\x7b' ∉ rest := fun hh => h (List.mem_cons_of_mem _ hh)
    have hnp : ¬ placeholder.isPrefixOf (c :: rest) = true := fun hp =>
      hc (isPrefixOf_placeholder_head hp)
    simp only [strContains]
    rw [ih hrest]
    simp only [Bool.or_false]
    exact Bool.eq_false_iff.mpr hnp

/-- A `custom_options` template whose question holds no placeholder. -/
def tNoPh : Template := ⟨some 9, "custom_options".toList, "hi".toList, ["x".toList, "y".toList]⟩

/-- One no-placeholder template and one named participant. -/
def dbNoPh : DB := ⟨[tNoPh], [⟨1, 1, some "A".toList⟩], []⟩

/-- C3 counterexample: a `custom_options` template whose question text
has no placeholder renders unchanged, so the rendered text does not
contain the chosen participant's name (here the only participant "A"). -/
theorem custom_options_no_placeholder_cex :
    (generate_random_question (.ready dbNoPh) 1 ⟨0, 0, 0, [], 0⟩).1 =
      ("hi".toList, ["x".toList, "y".toList], some 9) ∧
    strContains "A".toList "hi".toList = false := by decide

/-- C3 (amended): for a selected `custom_options` template, the selector
blocks with no-participants when no participant has a truthy username;
otherwise one named participant is chosen and substituted for every
occurrence of the placeholder, the options are the template's fixed
list verbatim and in order, and whenever the question text is
`pre ++ \x7bmember\x7d ++ post` with no other brace characters the
rendered text is `pre ++ name ++ post` — it contains the name and no
placeholder remains. -/
theorem custom_options_render (db : DB) (chat : Int) (r : Rand) (t : Template)
    (store1 : Store)
    (hsel : get_random_question_from_db (.ready db) chat r.s1 r.s2 = (some t, store1))
    (htype : t.type = "custom_options".toList) :
    (get_participants_names store1 chat = [] →
       generate_random_question (.ready db) chat r =
         ((errNoParticipants, errOption, none), store1)) ∧
    (∀ names, get_participants_names store1 chat = names → names ≠ [] →
       ∃ member, pickMod names r.choice = some member ∧ member ∈ names ∧
         generate_random_question (.ready db) chat r =
           ((replaceAll t.question member, t.options, t.hash), store1) ∧
         (∀ pre post, t.question = pre ++ placeholder ++ post →
            '\x7b' ∉ pre → '\x7b' ∉ post → '\x7b' ∉ member →
            replaceAll t.question member = pre ++ member ++ post ∧
            strContains member (replaceAll t.question member) = true ∧
            strContains placeholder (replaceAll t.question member) = false)) := by
  have hne : (t.type == "member_options".toList) = false := by
    rw [htype]
    decide
  constructor
  · intro hnil
    simp only [generate_random_question]
    rw [hsel]
    simp only [build_question, hne, Bool.false_eq_true, if_false, htype, beq_self_eq_true,
      if_true, hnil]
    rfl
  · intro names hn hnnil
    cases names with
    | nil => exact absurd rfl hnnil
    | cons a rest =>
      refine ⟨(a :: rest).get ⟨r.choice % (rest.length + 1), Nat.mod_lt _ (Nat.succ_pos _)⟩,
        rfl, List.get_mem _ _ _, ?_, ?_⟩
      · simp only [generate_random_question]
        rw [hsel]
        simp only [build_question, hne, Bool.false_eq_true, if_false, htype, beq_self_eq_true,
          if_true, hn]
        rfl
      · intro pre post hq hpre hpost hmem
        rw [hq, replaceAll_shape pre post _ hpre hpost hmem]
        refine ⟨rfl, strContains_mid pre _ post, ?_⟩
        apply strContains_placeholder_eq_false
        intro hb
        rcases List.mem_append.mp hb with h1 | h2
        · rcases List.mem_append.mp h1 with ha | hbm
          · exact hpre ha
          · exact hmem hbm
        · exact hpost h2

theorem custom_options_render_witness :
    generate_random_question (.ready dbFresh) 1 ⟨0, 0, 0, [], 0⟩ =
      ((replaceAll tCust.question "A".toList, tCust.options, tCust.hash), .ready dbFresh) ∧
    replaceAll tCust.question "A".toList =
      "Who likes ".toList ++ "A".toList ++ "?".toList ∧
    strContains "A".toList (replaceAll tCust.question "A".toList) = true ∧
    strContains placeholder (replaceAll tCust.question "A".toList) = false := by
  obtain ⟨member, hpick, hmem, hgen, hshape⟩ :=
    (custom_options_render dbFresh 1 ⟨0, 0, 0, [], 0⟩ tCust (.ready dbFresh)
        (by decide) (by decide)).2 ["A".toList] (by decide) (by decide)
  have hA : member = "A".toList := by
    have h2 : some member = some "A".toList := by rw [← hpick]; decide
    exact Option.some_injective _ h2
  subst hA
  obtain ⟨h1, h2, h3⟩ := hshape "Who likes ".toList "?".toList (by decide) (by decide)
    (by decide) (by decide)
  exact ⟨hgen, h1, h2, h3⟩

theorem filter_reset_other (l : List AskedRecord) (chat g : Int) (hg : g ≠ chat) :
    ((l.filter fun r => !(r.chatId == chat)).filter fun r => r.chatId == g) =
      l.filter fun r => r.chatId == g := by
  induction l with
  | nil => rfl
  | cons r rs ih =>
    by_cases hc : (r.chatId == chat) = true
    · have hcg : (r.chatId == g) = false := by
        have h1 : r.chatId = chat := beq_iff_eq.mp hc
        rw [h1]
        exact beq_eq_false_iff_ne.mpr fun hh => hg hh.symm
      simp [List.filter_cons, hc, hcg, ih]
    · simp [List.filter_cons, hc, ih]

theorem get_asked_reset_other (s : Store) (chat g : Int) (hg : g ≠ chat) :
    get_asked_question_hashes ((reset_asked_questions s chat).1) g =
      get_asked_question_hashes s g := by
  cases s with
  | unavailable => rfl
  | failing => rfl
  | ready db =>
    show ((db.asked.filter _).filter _).map _ = (db.asked.filter _).map _
    rw [filter_reset_other db.asked chat g hg]

theorem get_asked_reset_sub (s : Store) (chat g x : Int)
    (hx : x ∈ get_asked_question_hashes ((reset_asked_questions s chat).1) g) :
    x ∈ get_asked_question_hashes s g := by
  cases s with
  | unavailable => exact hx
  | failing => exact hx
  | ready db =>
    have hsub : ((db.asked.filter fun r => !(r.chatId == chat)).filter
        fun r => r.chatId == g).Sublist (db.asked.filter fun r => r.chatId == g) :=
      List.Sublist.filter _ (List.filter_sublist _)
    exact ((hsub.map fun r => r.questionHash).subset) hx

theorem selector_store_cases (s : Store) (chat : Int) (s1 s2 : Nat) :
    (get_random_question_from_db s chat s1 s2).2 = s ∨
    (get_random_question_from_db s chat s1 s2).2 = (reset_asked_questions s chat).1 := by
  cases s with
  | unavailable => exact Or.inl rfl
  | failing => exact Or.inl rfl
  | ready db =>
    simp only [get_random_question_from_db]
    cases hp : pickMod (matchedTemplates db (get_asked_question_hashes (.ready db) chat)) s1 with
    | some t => exact Or.inl rfl
    | none =>
      by_cases hz : db.templates.length = 0
      · rw [if_pos hz]
        exact Or.inl rfl
      · rw [if_neg hz]
        exact Or.inr rfl

theorem build_question_store (st : Store) (chat : Int) (r : Rand) (t : Template) :
    (build_question st chat r t).2 = st := by
  simp only [build_question]
  by_cases h1 : (t.type == "member_options".toList) = true
  · rw [if_pos h1]
    by_cases h2 : (get_participants_names st chat).length < 3
    · rw [if_pos h2]
    · rw [if_neg h2]
  · rw [if_neg h1]
    by_cases h3 : (t.type == "custom_options".toList) = true
    · rw [if_pos h3]
      by_cases h4 : (get_participants_names st chat).isEmpty = true
      · rw [if_pos h4]
      · rw [if_neg h4]
        cases pickMod (get_participants_names st chat) r.choice <;> rfl
    · rw [if_neg h3]

theorem generate_store (s : Store) (chat : Int) (r : Rand) :
    (generate_random_question s chat r).2 = (get_random_question_from_db s chat r.s1 r.s2).2 := by
  simp only [generate_random_question]
  cases hq : get_random_question_from_db s chat r.s1 r.s2 with
  | mk t? store1 =>
    cases t? with
    | none => rfl
    | some t => exact build_question_store store1 chat r t

/-- C5 counterexample: on an exhausted ledger the selector resets it
before the send, so a failed send still leaves the group's exclusion
set changed (here: from [7] to []), refuting "exclusion set unchanged"
— even though no record is ever added without a confirmed send. -/
theorem ledger_reset_on_failed_send_cex :
    get_asked_question_hashes (.ready dbExhausted) 1 = [7] ∧
    (send_scheduled_question (.ready dbExhausted) 1 ⟨0, 0, 0, [], 0⟩ 0
        (.err "boom".toList) .ok).result = .failedPrimary "boom".toList ∧
    get_asked_question_hashes
      (send_scheduled_question (.ready dbExhausted) 1 ⟨0, 0, 0, [], 0⟩ 0
        (.err "boom".toList) .ok).store 1 = [] := by decide

/-- C5 (amended): whenever a scheduled delivery does not end in a
successful send (selector blocked, primary failure of a non-topic
class, or fallback failure), no record is added to any group's
exclusion set — every hash present afterwards was present before — and
groups other than the target are completely untouched; the only
possible change to the target group is the selector's own exhaustion
reset, which clears rather than extends it. -/
theorem ledger_no_record_without_send (s : Store) (chat : Int) (r : Rand) (now : Nat)
    (p f : SendResult)
    (h1 : (send_scheduled_question s chat r now p f).result ≠ .sentPrimary)
    (h2 : (send_scheduled_question s chat r now p f).result ≠ .sentFallback) :
    (∀ g x, x ∈ get_asked_question_hashes (send_scheduled_question s chat r now p f).store g →
       x ∈ get_asked_question_hashes s g) ∧
    (∀ g, g ≠ chat →
       get_asked_question_hashes (send_scheduled_question s chat r now p f).store g =
         get_asked_question_hashes s g) := by
  have hstore1 : ∀ st1 q o h3, generate_random_question s chat r = ((q, o, h3), st1) →
      (∀ g x, x ∈ get_asked_question_hashes st1 g → x ∈ get_asked_question_hashes s g) ∧
      (∀ g, g ≠ chat → get_asked_question_hashes st1 g = get_asked_question_hashes s g) := by
    intro st1 q o h3 hgen
    have hq : st1 = (get_random_question_from_db s chat r.s1 r.s2).2 := by
      rw [← generate_store s chat r, hgen]
    rcases selector_store_cases s chat r.s1 r.s2 with hcase | hcase
    · rw [hq, hcase]
      exact ⟨fun g x hx => hx, fun g _ => rfl⟩
    · rw [hq, hcase]
      exact ⟨fun g x hx => get_asked_reset_sub s chat g x hx,
             fun g hgne => get_asked_reset_other s chat g hgne⟩
  by_cases hcnt : get_participants_count s chat = 0
  · have hD : send_scheduled_question s chat r now p f = ⟨s, .skippedNoParticipants, []⟩ := by
      simp only [send_scheduled_question, if_pos hcnt]
    rw [hD]
    exact ⟨fun g x hx => hx, fun g _ => rfl⟩
  · cases hgen : generate_random_question s chat r with
    | mk qoh store1 =>
      obtain ⟨q, o, h3⟩ := qoh
      have hsub := hstore1 store1 q o h3 hgen
      simp only [send_scheduled_question, if_neg hcnt, hgen] at h1 h2 ⊢
      by_cases ho : o = errOption
      · simp only [if_pos ho]
        exact hsub
      · simp only [if_neg ho] at h1 h2 ⊢
        cases p with
        | ok => exact absurd rfl h1
        | err msg =>
          by_cases ht : isTopicNotFound msg = true
          · simp only [if_pos ht] at h2 ⊢
            cases f with
            | ok => exact absurd rfl h2
            | err m2 => exact hsub
          · simp only [if_neg ht]
            exact hsub

theorem ledger_no_record_without_send_witness :
    get_asked_question_hashes
        (send_scheduled_question (.ready dbExhausted) 1 ⟨0, 0, 0, [], 0⟩ 0
          (.err "boom".toList) .ok).store 2 =
      get_asked_question_hashes (.ready dbExhausted : Store) 2 :=
  (ledger_no_record_without_send (.ready dbExhausted) 1 ⟨0, 0, 0, [], 0⟩ 0
      (.err "boom".toList) .ok (by decide) (by decide)).2 2 (by decide)

theorem any_key_iff_mem (l : List AskedRecord) (c h : Int) :
    (l.any fun r => r.chatId == c && r.questionHash == h) = true ↔
      h ∈ (l.filter fun r => r.chatId == c).map fun r => r.questionHash := by
  induction l with
  | nil => simp
  | cons r rs ih =>
    rw [List.any_cons, List.filter_cons]
    by_cases hc : (r.chatId == c) = true
    · rw [if_pos hc, List.map_cons]
      rw [Bool.or_eq_true, Bool.and_eq_true, List.mem_cons]
      constructor
      · rintro (⟨h5, hq⟩ | hany)
        · exact Or.inl (beq_iff_eq.mp hq).symm
        · exact Or.inr (ih.mp hany)
      · rintro (heq | hmem)
        · exact Or.inl ⟨hc, beq_iff_eq.mpr heq.symm⟩
        · exact Or.inr (ih.mpr hmem)
    · rw [if_neg hc, Bool.or_eq_true, Bool.and_eq_true]
      constructor
      · rintro (⟨hcc, h5⟩ | hany)
        · exact absurd hcc hc
        · exact ih.mp hany
      · intro hmem
        exact Or.inr (ih.mpr hmem)

theorem hashesOfKeys_append (ks : List (Int × Int)) (c h : Int) :
    hashesOfKeys (ks ++ [(c, h)]) c = hashesOfKeys ks c ++ [h] := by
  simp [hashesOfKeys, List.filter_append]

/-- Effect of one upsert on the observed exclusion set of its own
group: the hash becomes a member; it is appended exactly once when it
was absent and the set is unchanged when it was already present. -/
theorem mark_asked_spec (db : DB) (c h : Int) (now : Nat) :
    h ∈ get_asked_question_hashes (mark_question_as_asked (.ready db) c h now).1 c ∧
    (h ∉ get_asked_question_hashes (.ready db) c →
       get_asked_question_hashes (mark_question_as_asked (.ready db) c h now).1 c =
         get_asked_question_hashes (.ready db) c ++ [h]) ∧
    (h ∈ get_asked_question_hashes (.ready db) c →
       get_asked_question_hashes (mark_question_as_asked (.ready db) c h now).1 c =
         get_asked_question_hashes (.ready db) c) := by
  have hmark : get_asked_question_hashes (mark_question_as_asked (.ready db) c h now).1 c =
      hashesOfKeys ((upsertAsked db.asked c h now).map recKey) c := by
    show get_asked_question_hashes (.ready { db with asked := upsertAsked db.asked c h now }) c = _
    exact get_asked_eq_hashesOfKeys _ c
  by_cases hany : (db.asked.any fun r => r.chatId == c && r.questionHash == h) = true
  · have hkeys := map_recKey_upsert db.asked c h now
    rw [if_pos hany] at hkeys
    have heq : get_asked_question_hashes (mark_question_as_asked (.ready db) c h now).1 c =
        get_asked_question_hashes (.ready db) c := by
      rw [hmark, hkeys, ← get_asked_eq_hashesOfKeys]
    have hmem : h ∈ get_asked_question_hashes (.ready db) c :=
      (any_key_iff_mem db.asked c h).mp hany
    exact ⟨heq ▸ hmem, fun hno => absurd hmem hno, fun _ => heq⟩
  · have hkeys := map_recKey_upsert db.asked c h now
    rw [if_neg hany] at hkeys
    have heq : get_asked_question_hashes (mark_question_as_asked (.ready db) c h now).1 c =
        get_asked_question_hashes (.ready db) c ++ [h] := by
      rw [hmark, hkeys, hashesOfKeys_append, ← get_asked_eq_hashesOfKeys]
    refine ⟨?_, fun _ => heq, fun hmem => ?_⟩
    · rw [heq]
      exact List.mem_append_right _ (by simp)
    · exact absurd ((any_key_iff_mem db.asked c h).mpr hmem) hany

theorem selector_ready (db : DB) (chat : Int) (s1 s2 : Nat) :
    ∃ db2, (get_random_question_from_db (.ready db) chat s1 s2).2 = .ready db2 := by
  rcases selector_store_cases (.ready db) chat s1 s2 with hcase | hcase
  · exact ⟨db, hcase⟩
  · exact ⟨_, hcase⟩

/-- C6: when the primary (topic) send fails, the keyword classifier
decides everything: a topic-not-found class error triggers exactly one
fallback send to the general chat (attempts `[true, false]`) and any
other error triggers none (attempts `[true]`, failure surfaced); when
the fallback succeeds the delivered template's hash is recorded exactly
once — appended once if absent, left unchanged if already present. -/
theorem fallback_on_topic_error (s : Store) (chat : Int) (r : Rand) (now : Nat)
    (msg : Str) (fallback : SendResult) (q : Str) (opts : List Str) (h? : Option Int)
    (store1 : Store)
    (hcnt : get_participants_count s chat ≠ 0)
    (hgen : generate_random_question s chat r = ((q, opts, h?), store1))
    (hopts : opts ≠ errOption) :
    (isTopicNotFound msg = false →
       send_scheduled_question s chat r now (.err msg) fallback =
         ⟨store1, .failedPrimary msg, [true]⟩) ∧
    (isTopicNotFound msg = true →
       (send_scheduled_question s chat r now (.err msg) fallback).attempts = [true, false] ∧
       (∀ m2, fallback = .err m2 →
          send_scheduled_question s chat r now (.err msg) fallback =
            ⟨store1, .failedFallback m2, [true, false]⟩) ∧
       (fallback = .ok →
          send_scheduled_question s chat r now (.err msg) fallback =
            ⟨markIfHash store1 chat h? now, .sentFallback, [true, false]⟩ ∧
          (∀ h, h? = some h → h ≠ 0 →
             h ∈ get_asked_question_hashes (markIfHash store1 chat h? now) chat ∧
             (h ∉ get_asked_question_hashes store1 chat →
                get_asked_question_hashes (markIfHash store1 chat h? now) chat =
                  get_asked_question_hashes store1 chat ++ [h]) ∧
             (h ∈ get_asked_question_hashes store1 chat →
                get_asked_question_hashes (markIfHash store1 chat h? now) chat =
                  get_asked_question_hashes store1 chat)))) := by
  have hready : ∃ db2, store1 = .ready db2 := by
    cases s with
    | unavailable =>
      exfalso
      have hlit : generate_random_question .unavailable chat r =
          ((errNoQuestions, errOption, none), .unavailable) := rfl
      exact hopts (congrArg (fun x => x.1.2.1) (hgen.symm.trans hlit))
    | failing =>
      exfalso
      have hlit : generate_random_question .failing chat r =
          ((errNoQuestions, errOption, none), .failing) := rfl
      exact hopts (congrArg (fun x => x.1.2.1) (hgen.symm.trans hlit))
    | ready db =>
      obtain ⟨db2, hdb2⟩ := selector_ready db chat r.s1 r.s2
      refine ⟨db2, ?_⟩
      have hq : store1 = (get_random_question_from_db (.ready db) chat r.s1 r.s2).2 := by
        rw [← generate_store (.ready db) chat r, hgen]
      rw [hq, hdb2]
  have hsend : send_scheduled_question s chat r now (.err msg) fallback =
      (if isTopicNotFound msg then
         match fallback with
         | .ok => ⟨markIfHash store1 chat h? now, .sentFallback, [true, false]⟩
         | .err m2 => ⟨store1, .failedFallback m2, [true, false]⟩
       else ⟨store1, .failedPrimary msg, [true]⟩) := by
    simp only [send_scheduled_question, if_neg hcnt, hgen, if_neg hopts]
  constructor
  · intro hfalse
    rw [hsend, if_neg (by rw [hfalse]; exact Bool.false_ne_true)]
  · intro htrue
    rw [hsend, if_pos htrue]
    refine ⟨?_, ?_, ?_⟩
    · cases fallback <;> rfl
    · intro m2 hf
      rw [hf]
    · intro hf
      rw [hf]
      refine ⟨rfl, ?_⟩
      intro h hsome hnz
      obtain ⟨db2, hdb2⟩ := hready
      rw [hsome, hdb2]
      show h ∈ get_asked_question_hashes (markIfHash (.ready db2) chat (some h) now) chat ∧ _
      have hmf : markIfHash (.ready db2) chat (some h) now =
          (mark_question_as_asked (.ready db2) chat h now).1 := by
        simp only [markIfHash]
        rw [if_neg hnz]
      rw [hmf]
      exact mark_asked_spec db2 chat h now

theorem fallback_on_topic_error_witness :
    (send_scheduled_question (.ready dbFresh) 1 ⟨0, 0, 0, [], 0⟩ 0
        (.err "Bad Request: message thread not found".toList) .ok).attempts = [true, false] ∧
    send_scheduled_question (.ready dbFresh) 1 ⟨0, 0, 0, [], 0⟩ 0
        (.err "Bad Request: message thread not found".toList) .ok =
      ⟨markIfHash (.ready dbFresh) 1 (some 7) 0, .sentFallback, [true, false]⟩ ∧
    7 ∈ get_asked_question_hashes (markIfHash (.ready dbFresh) 1 (some 7) 0) 1 ∧
    get_asked_question_hashes (markIfHash (.ready dbFresh) 1 (some 7) 0) 1 =
      get_asked_question_hashes (.ready dbFresh : Store) 1 ++ [7] := by
  have h := (fallback_on_topic_error (.ready dbFresh) 1 ⟨0, 0, 0, [], 0⟩ 0
      "Bad Request: message thread not found".toList .ok
      (replaceAll tCust.question "A".toList) tCust.options (some 7) (.ready dbFresh)
      (by decide) (by decide) (by decide)).2 (by decide)
  obtain ⟨hatt, -, hok⟩ := h
  obtain ⟨heq, hmark⟩ := hok rfl
  obtain ⟨hm1, hm2, -⟩ := hmark 7 rfl (by decide)
  exact ⟨hatt, heq, hm1, hm2 (by decide)⟩

/-- Invariant: a ready store carries the fixed template pool and every
ledger record's hash is the hash of some stored template. -/
def LedgerCovered (templates : List Template) : Store → Prop
  | .ready db => db.templates = templates ∧
      ∀ rcd ∈ db.asked, ∃ t ∈ templates, t.hash = some rcd.questionHash
  | _ => True

theorem reset_covered (templates : List Template) (s : Store)
    (h : LedgerCovered templates s) (chat : Int) :
    LedgerCovered templates (reset_asked_questions s chat).1 := by
  cases s with
  | unavailable => exact h
  | failing => exact h
  | ready db => exact ⟨h.1, fun rcd hr => h.2 rcd (List.mem_of_mem_filter hr)⟩

theorem selector_preserves (templates : List Template) (s : Store) (chat : Int) (s1 s2 : Nat)
    (h : LedgerCovered templates s) :
    LedgerCovered templates (get_random_question_from_db s chat s1 s2).2 := by
  rcases selector_store_cases s chat s1 s2 with hc | hc <;> rw [hc]
  · exact h
  · exact reset_covered templates s h chat

theorem mem_upsert_hash (l : List AskedRecord) (c h : Int) (t : Nat) (rcd : AskedRecord)
    (hr : rcd ∈ upsertAsked l c h t) :
    rcd.questionHash = h ∨ ∃ r0 ∈ l, rcd.questionHash = r0.questionHash := by
  induction l with
  | nil =>
    simp only [upsertAsked, List.mem_singleton] at hr
    exact Or.inl (by rw [hr])
  | cons r rs ih =>
    simp only [upsertAsked] at hr
    by_cases hm : (r.chatId == c && r.questionHash == h) = true
    · rw [if_pos hm] at hr
      rcases List.mem_cons.mp hr with h1 | h1
      · left
        rw [h1]
        show r.questionHash = h
        simp only [Bool.and_eq_true] at hm
        exact beq_iff_eq.mp hm.2
      · exact Or.inr ⟨rcd, List.mem_cons_of_mem _ h1, rfl⟩
    · rw [if_neg hm] at hr
      rcases List.mem_cons.mp hr with h1 | h1
      · exact Or.inr ⟨r, List.mem_cons_self _ _, by rw [h1]⟩
      · rcases ih h1 with h2 | ⟨r0, hr0, h3⟩
        · exact Or.inl h2
        · exact Or.inr ⟨r0, List.mem_cons_of_mem _ hr0, h3⟩

theorem mark_covered (templates : List Template) (s : Store) (c h : Int) (now : Nat)
    (hcov : LedgerCovered templates s)
    (hh : ∃ t ∈ templates, t.hash = some h) :
    LedgerCovered templates (mark_question_as_asked s c h now).1 := by
  cases s with
  | unavailable => exact hcov
  | failing => exact hcov
  | ready db =>
    refine ⟨hcov.1, fun rcd hr => ?_⟩
    rcases mem_upsert_hash db.asked c h now rcd hr with h1 | ⟨r0, hr0, h2⟩
    · rw [h1]
      exact hh
    · rw [h2]
      exact hcov.2 r0 hr0

theorem markIfHash_covered (templates : List Template) (s : Store) (c : Int)
    (h? : Option Int) (now : Nat) (hcov : LedgerCovered templates s)
    (hh : ∀ h, h? = some h → ∃ t ∈ templates, t.hash = some h) :
    LedgerCovered templates (markIfHash s c h? now) := by
  cases h? with
  | none => exact hcov
  | some h =>
    simp only [markIfHash]
    by_cases hz : h = 0
    · rw [if_pos hz]
      exact hcov
    · rw [if_neg hz]
      exact mark_covered templates s c h now hcov (hh h rfl)

theorem build_question_hash (st : Store) (chat : Int) (r : Rand) (t : Template) :
    (build_question st chat r t).1.2.2 = none ∨ (build_question st chat r t).1.2.2 = t.hash := by
  simp only [build_question]
  by_cases h1 : (t.type == "member_options".toList) = true
  · rw [if_pos h1]
    by_cases h2 : (get_participants_names st chat).length < 3
    · rw [if_pos h2]
      exact Or.inl rfl
    · rw [if_neg h2]
      exact Or.inr rfl
  · rw [if_neg h1]
    by_cases h3 : (t.type == "custom_options".toList) = true
    · rw [if_pos h3]
      by_cases h4 : (get_participants_names st chat).isEmpty = true
      · rw [if_pos h4]
        exact Or.inl rfl
      · rw [if_neg h4]
        cases pickMod (get_participants_names st chat) r.choice with
        | none => exact Or.inl rfl
        | some mem => exact Or.inr rfl
    · rw [if_neg h3]
      exact Or.inl rfl

theorem selector_mem (db : DB) (chat : Int) (s1 s2 : Nat) (t : Template)
    (h : (get_random_question_from_db (.ready db) chat s1 s2).1 = some t) :
    t ∈ db.templates := by
  revert h
  simp only [get_random_question_from_db]
  cases hp : pickMod (matchedTemplates db (get_asked_question_hashes (.ready db) chat)) s1 with
  | some t2 =>
    intro h
    have ht2 : t2 = t := Option.some_injective _ h
    exact matchedTemplates_subset _ _ _ (pickMod_mem _ _ (by rw [hp, ht2]))
  | none =>
    by_cases hz : db.templates.length = 0
    · rw [if_pos hz]
      intro h
      exact absurd h (by simp)
    · rw [if_neg hz]
      intro h
      exact pickMod_mem _ _ h

theorem generate_covered (templates : List Template) (s : Store) (chat : Int) (r : Rand)
    (q : Str) (o : List Str) (h? : Option Int) (store1 : Store)
    (hcov : LedgerCovered templates s)
    (hgen : generate_random_question s chat r = ((q, o, h?), store1)) :
    LedgerCovered templates store1 ∧
    (∀ h, h? = some h → ∃ t ∈ templates, t.hash = some h) := by
  have hst1 : store1 = (get_random_question_from_db s chat r.s1 r.s2).2 := by
    rw [← generate_store s chat r, hgen]
  refine ⟨by rw [hst1]; exact selector_preserves templates s chat r.s1 r.s2 hcov, ?_⟩
  intro h hsome
  cases s with
  | unavailable =>
    exfalso
    have hlit : generate_random_question .unavailable chat r =
        ((errNoQuestions, errOption, none), .unavailable) := rfl
    have h5 := congrArg (fun x => x.1.2.2) (hgen.symm.trans hlit)
    rw [hsome] at h5
    exact Option.noConfusion h5
  | failing =>
    exfalso
    have hlit : generate_random_question .failing chat r =
        ((errNoQuestions, errOption, none), .failing) := rfl
    have h5 := congrArg (fun x => x.1.2.2) (hgen.symm.trans hlit)
    rw [hsome] at h5
    exact Option.noConfusion h5
  | ready db =>
    cases hsel : get_random_question_from_db (.ready db) chat r.s1 r.s2 with
    | mk t? st =>
      cases t? with
      | none =>
        exfalso
        have hlit : generate_random_question (.ready db) chat r =
            ((errNoQuestions, errOption, none), st) := by
          simp only [generate_random_question, hsel]
        have h5 := congrArg (fun x => x.1.2.2) (hgen.symm.trans hlit)
        rw [hsome] at h5
        exact Option.noConfusion h5
      | some t =>
        have hlit : generate_random_question (.ready db) chat r = build_question st chat r t := by
          simp only [generate_random_question, hsel]
        have h5 := congrArg (fun x => x.1.2.2) (hgen.symm.trans hlit)
        dsimp only at h5
        rcases build_question_hash st chat r t with hb | hb
        · exfalso
          rw [← h5, hsome] at hb
          exact Option.noConfusion hb
        · have hth : t.hash = some h := by rw [← hb, ← h5, hsome]
          have htm : t ∈ db.templates :=
            selector_mem db chat r.s1 r.s2 t (by rw [hsel])
          rw [← hcov.1]
          exact ⟨t, htm, hth⟩

theorem deliver_covered (templates : List Template) (s : Store) (chat : Int) (r : Rand)
    (now : Nat) (p f : SendResult) (hcov : LedgerCovered templates s) :
    LedgerCovered templates (send_scheduled_question s chat r now p f).store := by
  by_cases hcnt : get_participants_count s chat = 0
  · have hD : send_scheduled_question s chat r now p f = ⟨s, .skippedNoParticipants, []⟩ := by
      simp only [send_scheduled_question, if_pos hcnt]
    rw [hD]
    exact hcov
  · cases hgen : generate_random_question s chat r with
    | mk qoh store1 =>
      obtain ⟨q, o, h?⟩ := qoh
      obtain ⟨hst1, hhash⟩ := generate_covered templates s chat r q o h? store1 hcov hgen
      have hmark := markIfHash_covered templates store1 chat h? now hst1 hhash
      simp only [send_scheduled_question, if_neg hcnt, hgen]
      by_cases ho : o = errOption
      · simp only [if_pos ho]
        exact hst1
      · simp only [if_neg ho]
        cases p with
        | ok => exact hmark
        | err msg =>
          by_cases ht : isTopicNotFound msg = true
          · simp only [if_pos ht]
            cases f with
            | ok => exact hmark
            | err m2 => exact hst1
          · simp only [if_neg ht]
            exact hst1

theorem askBody_covered (templates : List Template) (s : Store) (user chat : Int) (r : Rand)
    (now : Nat) (snd : SendResult) (hcov : LedgerCovered templates s) :
    LedgerCovered templates (ask_question_body s user chat r now snd).1 := by
  by_cases hp : is_user_participating s user chat = true
  · cases hgen : generate_random_question s chat r with
    | mk qoh store1 =>
      obtain ⟨q, o, h?⟩ := qoh
      obtain ⟨hst1, hhash⟩ := generate_covered templates s chat r q o h? store1 hcov hgen
      have hmark := markIfHash_covered templates store1 chat h? now hst1 hhash
      simp only [ask_question_body, hp, Bool.not_true, Bool.false_eq_true, if_false, hgen]
      by_cases ho : o = errOption
      · simp only [if_pos ho]
        exact hst1
      · simp only [if_neg ho]
        cases snd with
        | ok => exact hmark
        | err msg => exact hst1
  · have hpf : is_user_participating s user chat = false := by
      cases hb : is_user_participating s user chat
      · rfl
      · exact absurd hb hp
    simp only [ask_question_body, hpf, Bool.not_false, if_true]
    exact hcov

/-- Every store reachable from an empty ledger satisfies the
coverage invariant. -/
theorem reachable_covered (templates : List Template) (s : Store)
    (h : Reachable templates s) : LedgerCovered templates s := by
  induction h with
  | init participants => exact ⟨rfl, fun rcd hr => absurd hr (List.not_mem_nil rcd)⟩
  | selector s chat s1 s2 hre ih => exact selector_preserves templates s chat s1 s2 ih
  | deliver s chat r now p f hre ih => exact deliver_covered templates s chat r now p f ih
  | askBody s user chat r now snd hre ih =>
      exact askBody_covered templates s user chat r now snd ih
  | askDisabled s user chat r now snd hre ih => exact ih
  | resetStep s chat hre ih => exact reset_covered templates s ih chat

/-- C8: in every reachable state (any sequence of selector, delivery,
on-demand and reset operations from an empty ledger) each hash in a
group's exclusion set is the hash of a template in the fixed store —
the exclusion set is a subset of the store's template identifiers. -/
theorem exclusion_subset_templates (templates : List Template) (s : Store)
    (hr : Reachable templates s) (chat h : Int)
    (hmem : h ∈ get_asked_question_hashes s chat) :
    (templates.any fun t => t.hash == some h) = true := by
  have hcov := reachable_covered templates s hr
  cases s with
  | unavailable => exact absurd hmem (List.not_mem_nil h)
  | failing => exact absurd hmem (List.not_mem_nil h)
  | ready db =>
    obtain ⟨rcd, hrcd, hhash⟩ := List.mem_map.mp hmem
    have hrc : rcd ∈ db.asked := List.mem_of_mem_filter hrcd
    obtain ⟨t, htmem, hth⟩ := hcov.2 rcd hrc
    refine List.any_eq_true.mpr ⟨t, htmem, ?_⟩
    rw [hth, hhash]
    exact beq_self_eq_true _

theorem exclusion_subset_templates_witness :
    ([tCust].any fun t => t.hash == some 7) = true :=
  exclusion_subset_templates [tCust]
    (send_scheduled_question (.ready ⟨[tCust], [⟨1, 1, some "A".toList⟩], []⟩)
      1 ⟨0, 0, 0, [], 0⟩ 0 .ok .ok).store
    (Reachable.deliver _ 1 ⟨0, 0, 0, [], 0⟩ 0 .ok .ok
      (Reachable.init [⟨1, 1, some "A".toList⟩]))
    1 7 (by decide)

end AskUs
